import Mathlib

/-!
Shallow embedding of the timerun library (src/timerun.py).

Conventions of the embedding:
* Python machine integers are arbitrary-precision `Int` (as in Python itself).
* Clock readings are explicit `Int` arguments: every method of the source that
  internally calls the selected clock function (`perf_counter_ns` or
  `process_time_ns`) takes the reading that call would return as a parameter.
* Raising an exception is returning `Except.error`; the two timerun exception
  classes become the constructors of `TimeRunException`.
* Python attribute state becomes explicit record state; the possibly-unset
  `_start` attribute of the measurer is an `Option Int` (`none` models the
  attribute being absent, whose access raises `AttributeError`).
* Python list objects are mutable heap cells.  A `Store` maps addresses to
  list contents; `list.append` writes in place at the list's address, while a
  slice such as `self.durations[1:]` allocates a fresh cell (a new list
  object), exactly as in CPython.  This is needed to settle the container
  identity (aliasing) claims.
-/

namespace Timerun

/-- Base exception for all errors raised from timerun: `MeasurerNotLaunched`
and `NoElapsedTimeCaptured` are its only concrete subclasses in the source. -/
inductive TimeRunException where
  | measurerNotLaunched
  | noElapsedTimeCaptured
deriving DecidableEq, Repr

/-- The message each exception class passes to its superclass constructor. -/
def TimeRunException.message : TimeRunException → String
  | .measurerNotLaunched => "Measurer has not been launched yet."
  | .noElapsedTimeCaptured => "No duration has been captured yet."

/-- ElapsedTime: an immutable object representing elapsed time in nanoseconds
(the `@dataclass(frozen=True)` class of the source). -/
structure ElapsedTime where
  nanoseconds : Int
deriving DecidableEq, Repr

/-- The timedelta accessor, given as its exact microsecond count:
`timedelta(microseconds=self.nanoseconds // int(1e3))`.  Python `//` is floor
division, which `Int.fdiv` models. -/
def ElapsedTime.timedelta (t : ElapsedTime) : Int :=
  Int.fdiv t.nanoseconds 1000

/-- Decimal rendering of a natural number zero-padded on the left to `width`
digits, i.e. Python's format spec `:0{width}` for a nonnegative argument. -/
def natPad (width : Nat) (n : Nat) : String :=
  String.mk (List.replicate (width - (Nat.repr n).length) '0') ++ Nat.repr n

/-- Rendering of Python `str(timedelta(seconds=s))` for a whole number of
seconds `s` (the `integer_part` of `ElapsedTime.__str__`): normalize into
days (floor) and a nonnegative second-of-day remainder, print `H:MM:SS`, and
prefix `D day, ` or `D days, ` when the day count is nonzero.  There is no
microsecond component because the timedelta is built from whole seconds. -/
def timedeltaStr (totalSeconds : Int) : String :=
  let days : Int := Int.fdiv totalSeconds 86400
  let secs : Nat := (Int.fmod totalSeconds 86400).toNat
  let hh : Nat := secs / 3600
  let mm : Nat := secs % 3600 / 60
  let ss : Nat := secs % 60
  let hms : String := Nat.repr hh ++ ":" ++ natPad 2 mm ++ ":" ++ natPad 2 ss
  if days = 0 then hms
  else toString days ++ " day" ++ (if days = 1 ∨ days = -1 then "" else "s") ++ ", " ++ hms

/-- ElapsedTime.__str__: `integer_part = timedelta(seconds=ns // int(1e9))`,
`decimal_part = ns % int(1e9)` (Python `%` with a positive modulus is the
nonnegative floor remainder, `Int.fmod`); render only the integer part when
the decimal part is zero, else append `.` and the 9-digit padded remainder. -/
def ElapsedTime.str (t : ElapsedTime) : String :=
  let integer_part := timedeltaStr (Int.fdiv t.nanoseconds 1000000000)
  let decimal_part := Int.fmod t.nanoseconds 1000000000
  if decimal_part = 0 then integer_part
  else integer_part ++ "." ++ natPad 9 decimal_part.toNat

/-- ElapsedTimeMeasurer: `countSleep` records which clock function the
`_measure` attribute was bound to (`true` = `perf_counter_ns`, `false` =
`process_time_ns`); `start` is the `_start` attribute, `none` while the
attribute has never been assigned (the unlaunched state). -/
structure ElapsedTimeMeasurer where
  countSleep : Bool
  start : Option Int
deriving DecidableEq, Repr

/-- ElapsedTimeMeasurer.__init__: `count_sleep` defaults to `True` when
omitted (`None`); `_start` is not assigned. -/
def ElapsedTimeMeasurer.init (count_sleep : Option Bool) : ElapsedTimeMeasurer :=
  { countSleep := count_sleep.getD true, start := none }

/-- ElapsedTimeMeasurer.launch at clock reading `reading`: set or overwrite
`_start`. -/
def ElapsedTimeMeasurer.launch (m : ElapsedTimeMeasurer) (reading : Int) :
    ElapsedTimeMeasurer :=
  { m with start := some reading }

/-- ElapsedTimeMeasurer.elapse at clock reading `reading`: return
`ElapsedTime(reading - _start)`, or raise `MeasurerNotLaunched` when the
`_start` attribute is absent. -/
def ElapsedTimeMeasurer.elapse (m : ElapsedTimeMeasurer) (reading : Int) :
    Except TimeRunException ElapsedTime :=
  match m.start with
  | some s => .ok ⟨reading - s⟩
  | none => .error .measurerNotLaunched

/-- The elapse method as a state transformer: the method body performs no
attribute writes, so the measurer component of the result is the input
measurer unchanged (on the failure path as well). -/
def ElapsedTimeMeasurer.elapseS (m : ElapsedTimeMeasurer) (reading : Int) :
    Except TimeRunException ElapsedTime × ElapsedTimeMeasurer :=
  (m.elapse reading, m)

/-- One client-visible operation on a measurer, carrying the clock reading the
operation's internal `_measure()` call returns. -/
inductive MeasurerOp where
  | launch (reading : Int)
  | elapse (reading : Int)
deriving DecidableEq, Repr

/-- Run a sequence of operations against a measurer (elapse results are
discarded; only the state evolution matters here). -/
def runOps (m : ElapsedTimeMeasurer) : List MeasurerOp → ElapsedTimeMeasurer
  | [] => m
  | .launch r :: ops => runOps (m.launch r) ops
  | .elapse r :: ops => runOps (m.elapseS r).2 ops

/-- Whether a sequence of operations contains at least one launch. -/
def hasLaunch : List MeasurerOp → Bool
  | [] => false
  | .launch _ :: _ => true
  | .elapse _ :: ops => hasLaunch ops

/-- Address of a Python list object. -/
abbrev Addr := Nat

/-- Heap of Python list-of-ElapsedTime objects: `mem` gives each address its
current contents, `next` is the next fresh address (every address below
`next` is considered allocated). -/
structure Store where
  mem : Addr → List ElapsedTime
  next : Addr

/-- Allocate a fresh list object holding `v`; returns the new store and the
new object's address. -/
def Store.alloc (s : Store) (v : List ElapsedTime) : Store × Addr :=
  ({ mem := fun a => if a = s.next then v else s.mem a, next := s.next + 1 }, s.next)

/-- Overwrite the contents of the list object at `a` in place (the model of a
mutating `list.append`). -/
def Store.write (s : Store) (a : Addr) (v : List ElapsedTime) : Store :=
  { mem := fun x => if x = a then v else s.mem x, next := s.next }

/-- ElapsedTimeCatcher state: the owned `_measurer`, the `_max_storage`
bound, and `durationsRef`, the address of the list object currently bound to
the `durations` attribute. -/
structure ElapsedTimeCatcher where
  measurer : ElapsedTimeMeasurer
  maxStorage : Option Int
  durationsRef : Addr
deriving Repr

/-- ElapsedTimeCatcher.__init__: build a fresh measurer from `count_sleep`,
store `max_storage`, and bind `durations` to the supplied list object when
one is given, else to a freshly allocated empty list. -/
def ElapsedTimeCatcher.init (count_sleep : Option Bool) (max_storage : Option Int)
    (durations : Option Addr) (s : Store) : ElapsedTimeCatcher × Store :=
  match durations with
  | some a =>
      ({ measurer := .init count_sleep, maxStorage := max_storage, durationsRef := a }, s)
  | none =>
      let p := s.alloc []
      ({ measurer := .init count_sleep, maxStorage := max_storage, durationsRef := p.2 }, p.1)

/-- The `durations` attribute read: the contents of the list object the
catcher is currently bound to. -/
def ElapsedTimeCatcher.durations (c : ElapsedTimeCatcher) (s : Store) : List ElapsedTime :=
  s.mem c.durationsRef

/-- The `duration` property: `self.durations[-1]`, i.e. the last element,
with the empty-list `IndexError` re-raised as `NoElapsedTimeCaptured`. -/
def ElapsedTimeCatcher.duration (c : ElapsedTimeCatcher) (s : Store) :
    Except TimeRunException ElapsedTime :=
  match (c.durations s).getLast? with
  | some d => .ok d
  | none => .error .noElapsedTimeCaptured

/-- The exception information the `with` statement passes to `__exit__`:
`raised` is true on the exceptional exit path, false on normal completion.
The source's `__exit__(self, *exc)` never inspects it. -/
structure ExcInfo where
  raised : Bool
deriving DecidableEq, Repr

/-- The guard `self._max_storage is not None and len(self.durations) > self._max_storage`
evaluated at history length `len`. -/
def overLimit (max_storage : Option Int) (len : Nat) : Bool :=
  match max_storage with
  | some m => (len : Int) > m
  | none => false

/-- ElapsedTimeCatcher.__enter__ at clock reading `reading`: launch the
owned measurer and return `self`. -/
def ElapsedTimeCatcher.enter (c : ElapsedTimeCatcher) (reading : Int) : ElapsedTimeCatcher :=
  { c with measurer := c.measurer.launch reading }

/-- ElapsedTimeCatcher.__exit__ at clock reading `reading`:
`self.durations.append(self._measurer.elapse())` mutates the current list
object in place; then, when the over-limit guard holds,
`self.durations = self.durations[1:]` allocates a NEW list object holding
the slice (all but the first element) and rebinds the attribute to it.  The
`exc` information is ignored.  A `MeasurerNotLaunched` raise from `elapse`
propagates. -/
def ElapsedTimeCatcher.exit (c : ElapsedTimeCatcher) (_exc : ExcInfo) (reading : Int)
    (s : Store) : Except TimeRunException (ElapsedTimeCatcher × Store) :=
  match c.measurer.elapse reading with
  | .error e => .error e
  | .ok d =>
      let appended := c.durations s ++ [d]
      let s1 := s.write c.durationsRef appended
      if overLimit c.maxStorage appended.length then
        let p := s1.alloc (appended.drop 1)
        .ok ({ c with durationsRef := p.2 }, p.1)
      else
        .ok (c, s1)

/-- One scoped use (`with catcher: body`): `__enter__` at reading `r₁`, run
the body (whose only history-relevant observable is whether it raised, in
`exc`), then `__exit__` at reading `r₂` on that same exit path. -/
def ElapsedTimeCatcher.scopedUse (c : ElapsedTimeCatcher) (r₁ r₂ : Int) (exc : ExcInfo)
    (s : Store) : Except TimeRunException (ElapsedTimeCatcher × Store) :=
  (c.enter r₁).exit exc r₂ s

/-- One invocation of a callable wrapped by the catcher.  `ContextDecorator`
defines the wrapper as `with self._recreate_cm(): return func(...)` and
`_recreate_cm` returns `self`, so an invocation is `__enter__` at `r₁`, the
wrapped callable's body (raising or not, per `bodyRaises`), then `__exit__`
at `r₂`. -/
def ElapsedTimeCatcher.wrappedCall (c : ElapsedTimeCatcher) (r₁ r₂ : Int)
    (bodyRaises : Bool) (s : Store) : Except TimeRunException (ElapsedTimeCatcher × Store) :=
  (c.enter r₁).exit ⟨bodyRaises⟩ r₂ s

/-- Run a sequence of scoped uses (normal completion each time), threading
the catcher and store; each element gives the enter and exit readings. -/
def iterScoped (c : ElapsedTimeCatcher) (s : Store) :
    List (Int × Int) → Except TimeRunException (ElapsedTimeCatcher × Store)
  | [] => .ok (c, s)
  | (r₁, r₂) :: rest =>
      match c.scopedUse r₁ r₂ ⟨false⟩ s with
      | .error e => .error e
      | .ok p => iterScoped p.1 p.2 rest

/-- Run a sequence of wrapped-callable invocations, threading the catcher
and store; each element gives the enter reading, the exit reading, and
whether the wrapped callable raised. -/
def iterWrapped (c : ElapsedTimeCatcher) (s : Store) :
    List (Int × Int × Bool) → Except TimeRunException (ElapsedTimeCatcher × Store)
  | [] => .ok (c, s)
  | (r₁, r₂, b) :: rest =>
      match c.wrappedCall r₁ r₂ b s with
      | .error e => .error e
      | .ok p => iterWrapped p.1 p.2 rest

/-- Run a sequence of scoped uses with an explicit exit-path flag for each,
threading the catcher and store. -/
def iterScopedExc (c : ElapsedTimeCatcher) (s : Store) :
    List (Int × Int × Bool) → Except TimeRunException (ElapsedTimeCatcher × Store)
  | [] => .ok (c, s)
  | (r₁, r₂, b) :: rest =>
      match c.scopedUse r₁ r₂ ⟨b⟩ s with
      | .error e => .error e
      | .ok p => iterScopedExc p.1 p.2 rest

/-- The one-step history transformation performed by an exit, as a pure list
function: append the new duration, then drop the single front element when
the over-limit guard fires. -/
def trimStep (max_storage : Option Int) (l : List ElapsedTime) (d : ElapsedTime) :
    List ElapsedTime :=
  let appended := l ++ [d]
  if overLimit max_storage appended.length then appended.drop 1 else appended

/-! ### Helper lemmas shared across the verification -/

theorem Store.mem_write_self (s : Store) (a : Addr) (v : List ElapsedTime) :
    (s.write a v).mem a = v := by
  simp [Store.write]

theorem Store.mem_write_ne (s : Store) (a b : Addr) (v : List ElapsedTime) (h : b ≠ a) :
    (s.write a v).mem b = s.mem b := by
  simp [Store.write, h]

theorem Store.next_write (s : Store) (a : Addr) (v : List ElapsedTime) :
    (s.write a v).next = s.next := rfl

theorem Store.mem_alloc_self (s : Store) (v : List ElapsedTime) :
    (s.alloc v).1.mem (s.alloc v).2 = v := by
  simp [Store.alloc]

theorem Store.mem_alloc_ne (s : Store) (v : List ElapsedTime) (b : Addr) (h : b ≠ s.next) :
    (s.alloc v).1.mem b = s.mem b := by
  simp [Store.alloc, h]

/-- Unfolding of a scoped use: with the measurer launched at `r₁` by
`__enter__`, the `elapse` call inside `__exit__` succeeds with duration
`r₂ - r₁`; the in-place append happens at the current address, followed by
the guarded reallocation. -/
theorem scopedUse_unfold (c : ElapsedTimeCatcher) (r₁ r₂ : Int) (e : ExcInfo) (s : Store) :
    c.scopedUse r₁ r₂ e s =
      (let appended := c.durations s ++ [⟨r₂ - r₁⟩]
       let s1 := s.write c.durationsRef appended
       if overLimit c.maxStorage appended.length then
         .ok ({ c.enter r₁ with durationsRef := (s1.alloc (appended.drop 1)).2 },
              (s1.alloc (appended.drop 1)).1)
       else
         .ok (c.enter r₁, s1)) := rfl

/-- A scoped use whose post-append length stays within the limit returns the
same catcher record (same `durationsRef`, measurer launched) and writes the
appended history in place at the catcher's current address. -/
theorem scopedUse_of_not_overLimit (c : ElapsedTimeCatcher) (r₁ r₂ : Int) (e : ExcInfo)
    (s : Store) (h : overLimit c.maxStorage ((c.durations s).length + 1) = false) :
    c.scopedUse r₁ r₂ e s =
      .ok (c.enter r₁, s.write c.durationsRef (c.durations s ++ [⟨r₂ - r₁⟩])) := by
  rw [scopedUse_unfold]
  simp only [List.length_append, List.length_cons, List.length_nil, Nat.zero_add] at *
  rw [h]
  simp

/-- A scoped use whose post-append length exceeds the limit appends in place
at the catcher's current address, then rebinds the catcher to a freshly
allocated cell holding the trimmed history. -/
theorem scopedUse_of_overLimit (c : ElapsedTimeCatcher) (r₁ r₂ : Int) (e : ExcInfo)
    (s : Store) (h : overLimit c.maxStorage ((c.durations s).length + 1) = true) :
    c.scopedUse r₁ r₂ e s =
      .ok ({ c.enter r₁ with durationsRef := s.next },
           ((s.write c.durationsRef (c.durations s ++ [ElapsedTime.mk (r₂ - r₁)])).alloc
             ((c.durations s ++ [ElapsedTime.mk (r₂ - r₁)]).drop 1)).1) := by
  rw [scopedUse_unfold]
  simp only [List.length_append, List.length_cons, List.length_nil, Nat.zero_add] at *
  rw [h]
  simp
  rfl

/-- Across every scoped use, the history seen through the catcher evolves by
exactly the append-then-trim step, the configured bound is unchanged, and
the exit result does not depend on the exit path. -/
theorem scopedUse_durations (c : ElapsedTimeCatcher) (r₁ r₂ : Int) (e : ExcInfo) (s : Store) :
    ∃ c' s', c.scopedUse r₁ r₂ e s = .ok (c', s') ∧
      c'.durations s' = trimStep c.maxStorage (c.durations s) ⟨r₂ - r₁⟩ ∧
      c'.maxStorage = c.maxStorage := by
  cases h : overLimit c.maxStorage ((c.durations s).length + 1) with
  | false =>
      refine ⟨_, _, scopedUse_of_not_overLimit c r₁ r₂ e s h, ?_, rfl⟩
      simp only [ElapsedTimeCatcher.durations] at h
      simp [trimStep, ElapsedTimeCatcher.durations, ElapsedTimeCatcher.enter,
        Store.write, h]
  | true =>
      refine ⟨_, _, scopedUse_of_overLimit c r₁ r₂ e s h, ?_, rfl⟩
      simp only [ElapsedTimeCatcher.durations] at h
      simp [trimStep, ElapsedTimeCatcher.durations, ElapsedTimeCatcher.enter,
        Store.write, Store.alloc, h]

/-- Every property of the history that the append-then-trim step preserves
is an invariant of arbitrary sequences of scoped uses. -/
theorem iterScoped_inv (P : List ElapsedTime → Prop) (M : Option Int)
    (hP : ∀ l d, P l → P (trimStep M l d)) :
    ∀ (rs : List (Int × Int)) (c : ElapsedTimeCatcher) (s : Store),
      c.maxStorage = M → P (c.durations s) →
      ∃ c' s', iterScoped c s rs = .ok (c', s') ∧ c'.maxStorage = M ∧ P (c'.durations s') := by
  intro rs
  induction rs with
  | nil => exact fun c s hM hPc => ⟨c, s, rfl, hM, hPc⟩
  | cons hd tl ih =>
      intro c s hM hPc
      obtain ⟨r₁, r₂⟩ := hd
      obtain ⟨c1, s1, hrun, hdur, hmax⟩ := scopedUse_durations c r₁ r₂ ⟨false⟩ s
      obtain ⟨c', s', hrun', hM', hP'⟩ :=
        ih c1 s1 (hmax.trans hM) (by rw [hdur, hM]; exact hP _ _ hPc)
      refine ⟨c', s', ?_, hM', hP'⟩
      have hstep : iterScoped c s ((r₁, r₂) :: tl) =
          match c.scopedUse r₁ r₂ ⟨false⟩ s with
          | .error e => .error e
          | .ok p => iterScoped p.1 p.2 tl := rfl
      rw [hstep, hrun]
      exact hrun'

/-- State of a measurer after a run of operations: the start attribute is
absent exactly when it was absent initially and no launch occurred. -/
theorem runOps_start_none :
    ∀ (ops : List MeasurerOp) (m : ElapsedTimeMeasurer),
      (runOps m ops).start = none ↔ (m.start = none ∧ hasLaunch ops = false) := by
  intro ops
  induction ops with
  | nil => simp [runOps, hasLaunch]
  | cons op ops ih =>
      intro m
      cases op with
      | launch r =>
          simp only [runOps, hasLaunch, ih]
          simp [ElapsedTimeMeasurer.launch]
      | elapse r =>
          simp only [runOps, hasLaunch, ElapsedTimeMeasurer.elapseS, ih]

/-- The elapse method raises exactly when the start attribute is absent. -/
theorem elapse_error_iff (m : ElapsedTimeMeasurer) (r : Int) :
    m.elapse r = .error .measurerNotLaunched ↔ m.start = none := by
  cases h : m.start <;> simp [ElapsedTimeMeasurer.elapse, h]

/-! ### Claim theorems -/

/-- C3: for every launched Measurer, elapse() at clock reading `c₁` returns
`Duration(c₁ - reference_point)` where the reference point is the reading of
the most recent launch; elapse() leaves the state unchanged, so repeated
elapse() calls measure cumulatively since the last launch; and relaunching
at `r₂` after a launch at `r₁` makes a subsequent elapse measure relative to
`r₂`, not `r₁`. -/
theorem measurer_elapse_reference_point (m : ElapsedTimeMeasurer) (r₁ r₂ c₁ c₂ : Int) :
    (m.launch r₁).elapse c₁ = .ok ⟨c₁ - r₁⟩ ∧
    ((m.launch r₁).elapseS c₁).2 = m.launch r₁ ∧
    (((m.launch r₁).elapseS c₁).2).elapse c₂ = .ok ⟨c₂ - r₁⟩ ∧
    ((m.launch r₁).launch r₂).elapse c₂ = .ok ⟨c₂ - r₂⟩ :=
  ⟨rfl, rfl, rfl, rfl⟩

/-- C6: elapse() raises `MeasurerNotLaunched` if and only if the measurer has
never been launched (over every operation sequence from a fresh measurer); in
particular a freshly constructed measurer raises it, and the elapse method
performs no state change, failed call included. -/
theorem elapse_error_iff_never_launched (count_sleep : Option Bool)
    (ops : List MeasurerOp) (r : Int) :
    ((runOps (ElapsedTimeMeasurer.init count_sleep) ops).elapse r
        = .error .measurerNotLaunched ↔ hasLaunch ops = false) ∧
    (ElapsedTimeMeasurer.init count_sleep).elapse r = .error .measurerNotLaunched ∧
    (∀ (m : ElapsedTimeMeasurer) (r2 : Int), (m.elapseS r2).2 = m) := by
  refine ⟨?_, rfl, fun m r2 => rfl⟩
  rw [elapse_error_iff, runOps_start_none]
  simp [ElapsedTimeMeasurer.init]

/-- C8: the string rendering of a Duration is the `H:MM:SS` rendering of the
nanosecond count floor-divided by 1e9 followed, when the remainder mod 1e9
is nonzero, by a dot and the remainder zero-padded to 9 digits, and by
nothing when the remainder is zero; with the three concrete renderings for
Duration(1), Duration(1_000_000_000) and Duration(0). -/
theorem elapsed_time_str_rendering :
    ElapsedTime.str ⟨1⟩ = "0:00:00.000000001" ∧
    ElapsedTime.str ⟨1000000000⟩ = "0:00:01" ∧
    ElapsedTime.str ⟨0⟩ = "0:00:00" ∧
    ∀ t : ElapsedTime,
      (Int.fmod t.nanoseconds 1000000000 = 0 →
        ElapsedTime.str t = timedeltaStr (Int.fdiv t.nanoseconds 1000000000)) ∧
      (Int.fmod t.nanoseconds 1000000000 ≠ 0 →
        ElapsedTime.str t = timedeltaStr (Int.fdiv t.nanoseconds 1000000000) ++ "." ++
          natPad 9 (Int.fmod t.nanoseconds 1000000000).toNat) := by
  refine ⟨by decide, by decide, by decide, fun t => ⟨fun h => ?_, fun h => ?_⟩⟩
  · simp [ElapsedTime.str, h]
  · simp [ElapsedTime.str, h]

/-- Witness for C8 at the concrete inputs 1 ns and 1 s. -/
theorem elapsed_time_str_rendering_witness :
    ElapsedTime.str ⟨1⟩ = timedeltaStr (Int.fdiv 1 1000000000) ++ "." ++
      natPad 9 (Int.fmod 1 1000000000).toNat ∧
    ElapsedTime.str ⟨1000000000⟩ = timedeltaStr (Int.fdiv 1000000000 1000000000) :=
  ⟨(elapsed_time_str_rendering.2.2.2 ⟨1⟩).2 (by decide),
   (elapsed_time_str_rendering.2.2.2 ⟨1000000000⟩).1 (by decide)⟩

/-- C9 counterexample: at nanosecond count -1 the timedelta accessor yields
-1 microsecond (floor division), not the 0 microseconds that division
truncated toward zero (`Int.tdiv`) would give, refuting the claim's
round-toward-zero description. -/
theorem timedelta_not_truncating_counterexample :
    ElapsedTime.timedelta ⟨-1⟩ = -1 ∧ Int.tdiv (-1) 1000 = 0 ∧
    ElapsedTime.timedelta ⟨-1⟩ ≠ Int.tdiv (-1) 1000 := by
  decide

/-- C9 amended: for every integer nanosecond count, the timedelta accessor
equals the count floor-divided by 1000 (rounding toward negative infinity,
as Python `//` does), never raising; for nonnegative counts this coincides
with truncation toward zero. -/
theorem timedelta_floor_division (n : Int) :
    ElapsedTime.timedelta ⟨n⟩ = Int.fdiv n 1000 ∧
    (0 ≤ n → ElapsedTime.timedelta ⟨n⟩ = Int.tdiv n 1000) := by
  refine ⟨rfl, fun h => ?_⟩
  show Int.fdiv n 1000 = Int.tdiv n 1000
  exact Int.fdiv_eq_tdiv h (by decide)

/-- Witness for C9 at the concrete input 2500 ns. -/
theorem timedelta_floor_division_witness :
    (0 : Int) ≤ 2500 ∧ ElapsedTime.timedelta ⟨2500⟩ = Int.fdiv 2500 1000 ∧
    ElapsedTime.timedelta ⟨2500⟩ = Int.tdiv 2500 1000 :=
  ⟨by decide, (timedelta_floor_division 2500).1, (timedelta_floor_division 2500).2 (by decide)⟩

/-- C7: the duration accessor raises `NoElapsedTimeCaptured` exactly when
the history is empty, returns the most recently appended entry otherwise,
and a freshly constructed catcher (no supplied container) raises it.  The
accessor is modelled as a pure function of the state: it performs no write,
so it cannot modify the history. -/
theorem duration_accessor_spec (c : ElapsedTimeCatcher) (s : Store) :
    (c.duration s = .error .noElapsedTimeCaptured ↔ c.durations s = []) ∧
    (∀ (l : List ElapsedTime) (d : ElapsedTime),
      c.durations s = l ++ [d] → c.duration s = .ok d) ∧
    (∀ (count_sleep : Option Bool) (max_storage : Option Int) (s0 : Store),
      ((ElapsedTimeCatcher.init count_sleep max_storage none s0).1).duration
        (ElapsedTimeCatcher.init count_sleep max_storage none s0).2
        = .error .noElapsedTimeCaptured) := by
  refine ⟨?_, fun l d h => ?_, fun cs ms s0 => ?_⟩
  · unfold ElapsedTimeCatcher.duration
    cases hl : (c.durations s).getLast? with
    | none =>
        simp only [List.getLast?_eq_none_iff] at hl
        simp [hl]
    | some d =>
        have : c.durations s ≠ [] := by
          intro he
          rw [he] at hl
          simp at hl
        simp [this]
  · unfold ElapsedTimeCatcher.duration
    rw [h, List.getLast?_concat]
  · simp [ElapsedTimeCatcher.init, ElapsedTimeCatcher.duration,
      ElapsedTimeCatcher.durations, Store.alloc]

/-- Concrete history used for the C7 witness. -/
def c7Store : Store := { mem := fun _ => [⟨3⟩, ⟨7⟩], next := 1 }

/-- Concrete catcher used for the C7 witness. -/
def c7Catcher : ElapsedTimeCatcher :=
  { measurer := .init none, maxStorage := none, durationsRef := 0 }

/-- Witness for C7 on a two-element history. -/
theorem duration_accessor_spec_witness :
    c7Catcher.durations c7Store = [⟨3⟩] ++ [⟨7⟩] ∧ c7Catcher.duration c7Store = .ok ⟨7⟩ :=
  ⟨by decide, (duration_accessor_spec c7Catcher c7Store).2.1 [⟨3⟩] ⟨7⟩ (by decide)⟩

/-- C4: on every exit path from a scoped use — normal completion or an
exception raised in the body — `__exit__` calls elapse() (succeeding with
`Duration(r₂ - r₁)`) and appends that duration to the current history
container; exactly one entry is appended (then the bounded-size trim may
drop the oldest front entry).  The exit result does not depend on the
exception information at all. -/
theorem exit_appends_on_every_path (c : ElapsedTimeCatcher) (r₁ r₂ : Int)
    (e₁ e₂ : ExcInfo) (s : Store) (href : c.durationsRef < s.next) :
    c.scopedUse r₁ r₂ e₁ s = c.scopedUse r₁ r₂ e₂ s ∧
    (c.enter r₁).measurer.elapse r₂ = .ok ⟨r₂ - r₁⟩ ∧
    ∃ c' s', c.scopedUse r₁ r₂ e₁ s = .ok (c', s') ∧
      c'.durations s' = trimStep c.maxStorage (c.durations s) ⟨r₂ - r₁⟩ ∧
      s'.mem c.durationsRef = c.durations s ++ [⟨r₂ - r₁⟩] := by
  refine ⟨rfl, rfl, ?_⟩
  cases h : overLimit c.maxStorage ((c.durations s).length + 1) with
  | false =>
      refine ⟨_, _, scopedUse_of_not_overLimit c r₁ r₂ e₁ s h, ?_,
        Store.mem_write_self ..⟩
      simp only [ElapsedTimeCatcher.durations] at h
      simp [trimStep, ElapsedTimeCatcher.durations, ElapsedTimeCatcher.enter,
        Store.write, h]
  | true =>
      refine ⟨_, _, scopedUse_of_overLimit c r₁ r₂ e₁ s h, ?_, ?_⟩
      · simp only [ElapsedTimeCatcher.durations] at h
        simp [trimStep, ElapsedTimeCatcher.durations, ElapsedTimeCatcher.enter,
          Store.write, Store.alloc, h]
      · have hne : c.durationsRef ≠
            (s.write c.durationsRef (c.durations s ++ [ElapsedTime.mk (r₂ - r₁)])).next := by
          rw [Store.next_write]; exact Nat.ne_of_lt href
        rw [Store.mem_alloc_ne _ _ _ hne]
        exact Store.mem_write_self ..

/-- Concrete store used for the C4 witness: one allocated container
(address 0), empty. -/
def c4Store : Store := { mem := fun _ => [], next := 1 }

/-- Concrete catcher used for the C4 witness: bounded at 1 entry, bound to
the container at address 0. -/
def c4Catcher : ElapsedTimeCatcher :=
  { measurer := .init none, maxStorage := some 1, durationsRef := 0 }

/-- The C4 witness run: a scoped use whose body raised. -/
def c4Run : Except TimeRunException (ElapsedTimeCatcher × Store) :=
  c4Catcher.scopedUse 0 5 ⟨true⟩ c4Store

/-- History seen through the catcher after the C4 witness run. -/
def c4View : List ElapsedTime :=
  match c4Run with
  | .ok p => p.1.durations p.2
  | .error _ => []

/-- Contents of the original container after the C4 witness run. -/
def c4CallerCell : List ElapsedTime :=
  match c4Run with
  | .ok p => p.2.mem c4Catcher.durationsRef
  | .error _ => []

/-- Witness for C4 on an exceptional exit (raised = true) versus a normal
one. -/
theorem exit_appends_on_every_path_witness :
    c4Catcher.durationsRef < c4Store.next ∧
    c4Catcher.scopedUse 0 5 ⟨true⟩ c4Store = c4Catcher.scopedUse 0 5 ⟨false⟩ c4Store ∧
    c4View = trimStep c4Catcher.maxStorage (c4Catcher.durations c4Store) ⟨5 - 0⟩ ∧
    c4CallerCell = c4Catcher.durations c4Store ++ [⟨5 - 0⟩] := by
  have h := exit_appends_on_every_path c4Catcher 0 5 ⟨true⟩ ⟨false⟩ c4Store (by decide)
  obtain ⟨heq, _, c', s', hrun, hdur, hmem⟩ := h
  refine ⟨by decide, heq, ?_, ?_⟩
  · simp only [c4View, c4Run, hrun]
    exact hdur
  · simp only [c4CallerCell, c4Run, hrun]
    exact hmem

/-- C5: invoking a callable wrapped by the catcher N times produces exactly
the same catcher state and heap — hence the same history contents and order
— as N scoped-block uses of the same catcher with the same clock readings
and the same raise/no-raise outcomes; both modes thread the one instance
(one measurer, one history).  The second part specializes to bodies that
complete normally. -/
theorem wrapper_scoped_equivalence :
    (∀ (rs : List (Int × Int × Bool)) (c : ElapsedTimeCatcher) (s : Store),
      iterWrapped c s rs = iterScopedExc c s rs) ∧
    (∀ (rs : List (Int × Int)) (c : ElapsedTimeCatcher) (s : Store),
      iterWrapped c s (rs.map fun p => (p.1, p.2, false)) = iterScoped c s rs) := by
  constructor
  · intro rs
    induction rs with
    | nil => intro c s; rfl
    | cons hd tl ih =>
        intro c s
        obtain ⟨r₁, r₂, b⟩ := hd
        simp only [iterWrapped, iterScopedExc]
        have hw : c.wrappedCall r₁ r₂ b s = c.scopedUse r₁ r₂ ⟨b⟩ s := rfl
        rw [hw]
        cases c.scopedUse r₁ r₂ ⟨b⟩ s with
        | error e => rfl
        | ok p => exact ih p.1 p.2
  · intro rs
    induction rs with
    | nil => intro c s; rfl
    | cons hd tl ih =>
        intro c s
        obtain ⟨r₁, r₂⟩ := hd
        simp only [List.map_cons, iterWrapped, iterScoped]
        have hw : c.wrappedCall r₁ r₂ false s = c.scopedUse r₁ r₂ ⟨false⟩ s := rfl
        rw [hw]
        cases c.scopedUse r₁ r₂ ⟨false⟩ s with
        | error e => rfl
        | ok p => exact ih p.1 p.2

/-- The append-then-trim step keeps a history that is within a configured
bound within that bound. -/
theorem trimStep_length_le (m : Int) (l : List ElapsedTime) (d : ElapsedTime)
    (h : (l.length : Int) ≤ m) : ((trimStep (some m) l d).length : Int) ≤ m := by
  simp only [trimStep]
  split
  · simp only [List.length_drop, List.length_append, List.length_cons, List.length_nil]
    push_cast
    omega
  · rename_i hc
    simp only [overLimit, List.length_append, List.length_cons, List.length_nil,
      decide_eq_true_eq] at hc
    simp only [List.length_append, List.length_cons, List.length_nil]
    push_cast at hc ⊢
    omega

/-- C2 amended: when a maximum size `m` is set and the history currently has
at most `m` entries (as it does for the default empty history), a scoped
exit performs the append-then-trim step — removing at most the single
oldest front entry, preserving the relative order of the rest — and the
resulting length again stays within `m`; hence the bound is invariant under
arbitrarily many scoped uses.  (An externally supplied history longer than
the maximum is NOT brought within the bound: the exit removes only one
front entry per capture.) -/
theorem bounded_history_invariant (c : ElapsedTimeCatcher) (s : Store) (m : Int)
    (hM : c.maxStorage = some m) (hlen : ((c.durations s).length : Int) ≤ m) :
    (∀ (r₁ r₂ : Int) (e : ExcInfo), ∃ c' s',
      c.scopedUse r₁ r₂ e s = .ok (c', s') ∧
      c'.durations s' = trimStep (some m) (c.durations s) ⟨r₂ - r₁⟩ ∧
      ((c'.durations s').length : Int) ≤ m) ∧
    (∀ rs : List (Int × Int), ∃ c' s',
      iterScoped c s rs = .ok (c', s') ∧ ((c'.durations s').length : Int) ≤ m) := by
  constructor
  · intro r₁ r₂ e
    obtain ⟨c', s', hrun, hdur, _⟩ := scopedUse_durations c r₁ r₂ e s
    rw [hM] at hdur
    exact ⟨c', s', hrun, hdur, by rw [hdur]; exact trimStep_length_le m _ _ hlen⟩
  · intro rs
    obtain ⟨c', s', hrun, _, hP⟩ := iterScoped_inv (fun l => ((l.length : Int) ≤ m)) (some m)
      (fun l d hl => trimStep_length_le m l d hl) rs c s hM hlen
    exact ⟨c', s', hrun, hP⟩

/-- Store for the C2 counterexample: the caller's container at address 0
already holds two entries. -/
def c2Store : Store := { mem := fun a => if a = 0 then [⟨1⟩, ⟨2⟩] else [], next := 1 }

/-- Catcher for the C2 counterexample: maximum size 0, external container of
length 2. -/
def c2Catcher : ElapsedTimeCatcher :=
  (ElapsedTimeCatcher.init none (some 0) (some 0) c2Store).1

/-- History seen through the catcher after one scoped use in the C2
counterexample. -/
def c2View : List ElapsedTime :=
  match c2Catcher.scopedUse 0 5 ⟨false⟩ c2Store with
  | .ok p => p.1.durations p.2
  | .error _ => []

/-- C2 counterexample: with maximum size 0 and a supplied history of length
2, a scoped exit leaves the history at length 2 — the eviction removes only
one front entry, so the claimed invariant fails for a starting history
longer than the maximum. -/
theorem oversize_supplied_history_stays_oversize :
    c2Catcher.maxStorage = some 0 ∧ c2View = [⟨2⟩, ⟨5⟩] ∧
    ¬ ((c2View.length : Int) ≤ 0) := by
  decide

/-- Store for the C2 witness: empty heap. -/
def c2wStore : Store := { mem := fun _ => [], next := 0 }

/-- Catcher and store for the C2 witness: default construction with maximum
size 2 (the spec's test vector). -/
def c2wInit : ElapsedTimeCatcher × Store :=
  ElapsedTimeCatcher.init none (some 2) none c2wStore

/-- The C2 witness run: three scoped uses capturing 100, 1000 and 1500 ns. -/
def c2wRun : Except TimeRunException (ElapsedTimeCatcher × Store) :=
  iterScoped c2wInit.1 c2wInit.2 [(0, 100), (0, 1000), (0, 1500)]

/-- History seen through the catcher after the C2 witness run. -/
def c2wView : List ElapsedTime :=
  match c2wRun with
  | .ok p => p.1.durations p.2
  | .error _ => []

/-- Witness for C2 on the spec's test vector: the final history is the two
newest entries and the bound holds. -/
theorem bounded_history_invariant_witness :
    c2wView = [⟨1000⟩, ⟨1500⟩] ∧ ((c2wView.length : Int) ≤ 2) := by
  obtain ⟨c', s', hrun, hP⟩ :=
    (bounded_history_invariant c2wInit.1 c2wInit.2 2 (by decide) (by decide)).2
      [(0, 100), (0, 1000), (0, 1500)]
  refine ⟨by decide, ?_⟩
  simp only [c2wView, c2wRun, hrun]
  exact hP

/-- C1 amended: a capture that does not trigger max-size eviction (in
particular every capture of a catcher with no maximum size set) operates
directly on the container the catcher is bound to: the exit appends in
place at that same address, the binding is unchanged, and reading the
container afterwards shows the appended history.  (A capture that does
trigger eviction instead rebinds the catcher to a freshly allocated trimmed
copy, so the caller's own reference stops reflecting the history; see the
counterexample.) -/
theorem external_container_identity_no_eviction (c : ElapsedTimeCatcher) (r₁ r₂ : Int)
    (e : ExcInfo) (s : Store)
    (h : overLimit c.maxStorage ((c.durations s).length + 1) = false) :
    c.scopedUse r₁ r₂ e s =
      .ok (c.enter r₁, s.write c.durationsRef (c.durations s ++ [⟨r₂ - r₁⟩])) ∧
    (c.enter r₁).durationsRef = c.durationsRef ∧
    (s.write c.durationsRef (c.durations s ++ [⟨r₂ - r₁⟩])).mem c.durationsRef =
      c.durations s ++ [⟨r₂ - r₁⟩] ∧
    (c.maxStorage = none →
      overLimit c.maxStorage ((c.durations s).length + 1) = false) := by
  refine ⟨scopedUse_of_not_overLimit c r₁ r₂ e s h, rfl, Store.mem_write_self .., fun hn => ?_⟩
  simp [overLimit, hn]

/-- Store for the C1 counterexample: the caller's container at address 0,
initially empty. -/
def c1Store : Store := { mem := fun _ => [], next := 1 }

/-- Catcher for the C1 counterexample: maximum size 1, externally supplied
container at address 0. -/
def c1Catcher : ElapsedTimeCatcher :=
  (ElapsedTimeCatcher.init none (some 1) (some 0) c1Store).1

/-- The C1 counterexample run: two scoped uses, the second of which
triggers eviction. -/
def c1Run : Except TimeRunException (ElapsedTimeCatcher × Store) :=
  iterScoped c1Catcher c1Store [(0, 5), (0, 7)]

/-- Contents of the caller's container (address 0) after the C1 run. -/
def c1CallerView : List ElapsedTime :=
  match c1Run with
  | .ok p => p.2.mem 0
  | .error _ => []

/-- History seen through the catcher after the C1 run. -/
def c1CatcherView : List ElapsedTime :=
  match c1Run with
  | .ok p => p.1.durations p.2
  | .error _ => []

/-- C1 counterexample: after the capture that triggers eviction the caller's
own container holds the untrimmed entries while the catcher's history is the
trimmed copy, so the caller's reference no longer reflects the current
history — refuting the claim for captures that trigger max-size eviction. -/
theorem eviction_breaks_container_identity :
    c1CallerView = [⟨5⟩, ⟨7⟩] ∧ c1CatcherView = [⟨7⟩] ∧
    c1CallerView ≠ c1CatcherView := by
  decide

/-- Store for the C1 witness: the caller's container at address 0, empty. -/
def c1wStore : Store := { mem := fun _ => [], next := 1 }

/-- Catcher for the C1 witness: no maximum size, externally supplied
container at address 0. -/
def c1wCatcher : ElapsedTimeCatcher :=
  { measurer := .init none, maxStorage := none, durationsRef := 0 }

/-- Witness for C1 on an unbounded catcher with a supplied container. -/
theorem external_container_identity_no_eviction_witness :
    overLimit c1wCatcher.maxStorage ((c1wCatcher.durations c1wStore).length + 1) = false ∧
    c1wCatcher.scopedUse 0 5 ⟨false⟩ c1wStore =
      .ok (c1wCatcher.enter 0, c1wStore.write c1wCatcher.durationsRef
        (c1wCatcher.durations c1wStore ++ [⟨5 - 0⟩])) ∧
    (c1wCatcher.enter 0).durationsRef = c1wCatcher.durationsRef ∧
    (c1wStore.write c1wCatcher.durationsRef
        (c1wCatcher.durations c1wStore ++ [⟨5 - 0⟩])).mem c1wCatcher.durationsRef =
      c1wCatcher.durations c1wStore ++ [⟨5 - 0⟩] := by
  have h := external_container_identity_no_eviction c1wCatcher 0 5 ⟨false⟩ c1wStore (by decide)
  exact ⟨by decide, h.1, h.2.1, h.2.2.1⟩

/-- C10 amended: a catcher constructed with maximum history size 0 and its
own freshly created (empty) history has an empty history after every
sequence of scoped uses — each appended entry is immediately evicted — so
the duration accessor raises `NoElapsedTimeCaptured` even after arbitrarily
many successful scoped uses. -/
theorem max_storage_zero_empty_history (count_sleep : Option Bool) (s0 : Store)
    (rs : List (Int × Int)) :
    ∃ c' s',
      iterScoped (ElapsedTimeCatcher.init count_sleep (some 0) none s0).1
        (ElapsedTimeCatcher.init count_sleep (some 0) none s0).2 rs = .ok (c', s') ∧
      c'.durations s' = [] ∧
      c'.duration s' = .error .noElapsedTimeCaptured := by
  have hstep : ∀ (l : List ElapsedTime) (d : ElapsedTime),
      l = [] → trimStep (some 0) l d = [] := by
    intro l d hl
    subst hl
    simp [trimStep, overLimit]
  have hinit : (ElapsedTimeCatcher.init count_sleep (some 0) none s0).1.durations
      (ElapsedTimeCatcher.init count_sleep (some 0) none s0).2 = [] := by
    simp [ElapsedTimeCatcher.init, ElapsedTimeCatcher.durations, Store.alloc]
  obtain ⟨c', s', hrun, _, hP⟩ :=
    iterScoped_inv (fun l => l = []) (some 0) hstep rs
      (ElapsedTimeCatcher.init count_sleep (some 0) none s0).1
      (ElapsedTimeCatcher.init count_sleep (some 0) none s0).2 rfl hinit
  refine ⟨c', s', hrun, hP, ?_⟩
  simp [ElapsedTimeCatcher.duration, hP]

/-- Store for the C10 counterexample: the caller's container at address 0
holds one entry. -/
def c10Store : Store := { mem := fun _ => [⟨1⟩], next := 1 }

/-- Catcher for the C10 counterexample: maximum size 0 with a supplied
nonempty container. -/
def c10Catcher : ElapsedTimeCatcher :=
  (ElapsedTimeCatcher.init none (some 0) (some 0) c10Store).1

/-- The C10 counterexample run: one scoped use. -/
def c10Run : Except TimeRunException (ElapsedTimeCatcher × Store) :=
  c10Catcher.scopedUse 0 5 ⟨false⟩ c10Store

/-- History seen through the catcher after the C10 run. -/
def c10View : List ElapsedTime :=
  match c10Run with
  | .ok p => p.1.durations p.2
  | .error _ => []

/-- Result of the duration accessor after the C10 run. -/
def c10Duration : Except TimeRunException ElapsedTime :=
  match c10Run with
  | .ok p => p.1.duration p.2
  | .error e => .error e

/-- C10 counterexample: a catcher constructed with maximum size 0 but an
externally supplied nonempty history does NOT have an empty history after a
scoped use (the eviction removes the oldest entry, not the appended one),
and its duration accessor succeeds — refuting the claim as stated for every
catcher with maximum size 0. -/
theorem max0_supplied_history_not_emptied :
    c10Catcher.maxStorage = some 0 ∧ c10View = [⟨5⟩] ∧ c10View ≠ [] ∧
    c10Duration = .ok ⟨5⟩ :=
  ⟨by decide, by decide, by decide, by rfl⟩

end Timerun
